import Mathlib

/-!
Verification of the version-compliance and CLI-resolution core of
robotframework-remoterunner-ssl (`src/rfremoterunner_ssl/utils.py`).

The development shallowly embeds:
* `check_for_pip_package_condition` (utils.py lines 516-606), the Version
  Compliance Evaluator.  External collaborators (the `johnnydep` distribution
  object and `packaging.version.parse`) are modelled as explicit inputs
  resp. a partial parse function.
* the argparse-based client CLI resolution relevant to the claims
  (`check_if_input_dir_exists`, the `extend`-action accumulation of
  `--input-dir` / `--extension`, and the defaulting lines 487-492 of
  `get_command_line_params_client`).
* the Upgrade Policy Resolver `decide` (modelled from the spec, as the server
  module holding it is not part of the embedded source file).

Python's `True` / `False` / `None` return values of the evaluator are
represented as `Except.ok (some true)` / `Except.ok (some false)` /
`Except.ok none`; the `assert` raising is `Except.error`.
-/

/-! ## Version strings (model of the external `packaging.version`) -/

/-- Splits a character list at the dots, modelling `"a.b.c".split(".")`-style
decomposition of a version string into its components. -/
def splitDots : List Char → List (List Char)
  | [] => [[]]
  | c :: cs =>
    match splitDots cs with
    | [] => [[]]
    | p :: ps => if c = '.' then [] :: p :: ps else (c :: p) :: ps

/-- Accumulating decimal-numeral reader: fails on any non-digit character. -/
def digitsToNatAux (acc : Nat) : List Char → Option Nat
  | [] => some acc
  | c :: cs =>
    if c.isDigit then digitsToNatAux (acc * 10 + (c.toNat - 48)) cs else none

/-- Reads a non-empty all-digit component as a natural number. -/
def parseNumeral : List Char → Option Nat
  | [] => none
  | c :: cs => digitsToNatAux 0 (c :: cs)

/-- Model of the external `packaging.version.parse`: accepts dotted numeric
release strings (`"1.2.0"`) and yields their components; any other string
(e.g. `"not-a-version"`, or the empty string) fails, modelling the
`InvalidVersion` exception the library raises on unparsable input. -/
def parseVersion (s : String) : Option (List Nat) :=
  (splitDots s.data).mapM parseNumeral

/-- PEP-440-style comparison of release component lists: the shorter list is
zero-padded, then components are compared lexicographically, as
`packaging.version.Version` ordering does on releases. -/
def verCompare : List Nat → List Nat → Ordering
  | [], ys => if ys.all (· == 0) then Ordering.eq else Ordering.lt
  | x :: xs, [] => if (x :: xs).all (· == 0) then Ordering.eq else Ordering.gt
  | x :: xs, y :: ys =>
    match compare x y with
    | Ordering.eq => verCompare xs ys
    | o => o

/-! ## The Version Compliance Evaluator (`check_for_pip_package_condition`) -/

/-- Model of Python `str.lower()`. -/
def pyLower (s : String) : String := String.mk (s.data.map Char.toLower)

/-- The `AssertionError` raised by the `assert compare_operator in [...]`
statement (utils.py line 537); the spec's `InvalidArgument` taxonomy entry for
an operator outside the six-symbol set. -/
inductive PipAssertionError
  | assertionError
deriving DecidableEq

/-- The result of evaluating `JohnnyDist(req_string=package_name)` together
with the two version attributes the evaluator reads from it. -/
structure JohnnyDistInfo where
  /-- `distribution.version_installed`: `none` models Python `None`
  (package not installed locally). -/
  version_installed : Option String
  /-- `distribution.version_latest`: `none` models the attribute lookup
  raising (the `except` branch setting `latest = None`). -/
  version_latest : Option String
deriving DecidableEq

/-- Outcome of the `JohnnyDist` constructor call: `unavailable` models the
constructor raising (package unavailable on PyPI). -/
inductive JohnnyDistResult
  | unavailable
  | available (d : JohnnyDistInfo)
deriving DecidableEq

/-- The list in `assert compare_operator in [">", ">=", "<", "<=", "!=", "=="]`
(utils.py line 537). -/
def valid_compare_operators : List String :=
  [">", ">=", "<", "<=", "!=", "=="]

/-- The `operator_list` dict (utils.py lines 584-591), applied to two parsed
versions.  The source maps the symbol to the comparison verbatim, including
its pairing of the first two entries: the key `"<="` is bound to
`operator.lt` and the key `"<"` to `operator.le`. -/
def operator_list (compare_operator : String) (a b : List Nat) : Bool :=
  if compare_operator = "<=" then verCompare a b == Ordering.lt
  else if compare_operator = "<" then verCompare a b != Ordering.gt
  else if compare_operator = "==" then verCompare a b == Ordering.eq
  else if compare_operator = "!=" then verCompare a b != Ordering.eq
  else if compare_operator = ">" then verCompare a b == Ordering.gt
  else if compare_operator = ">=" then verCompare a b != Ordering.lt
  else false

/-- Embedding of `check_for_pip_package_condition` (utils.py lines 516-606).

The `dist` argument captures the external `JohnnyDist` collaborator's
behaviour for `package_name`.  Return values: `Except.error` is the
`AssertionError` of line 537; `Except.ok none` is Python `None`
(Indeterminate); `Except.ok (some b)` is the boolean comparison result.
Python truthiness of the `installed` / `latest` strings (line 580:
`if not latest or not installed`) is spelled out: `None` and the empty
string are falsy. -/
def check_for_pip_package_condition (dist : JohnnyDistResult)
    (compare_operator specific_version : String) :
    Except PipAssertionError (Option Bool) :=
  if compare_operator ∈ valid_compare_operators then
    match dist with
    | JohnnyDistResult.unavailable => Except.ok none
    | JohnnyDistResult.available d =>
      let installed := d.version_installed
      let latest : Option String :=
        if specific_version ≠ "" ∧ pyLower specific_version ≠ "latest" then
          some specific_version
        else
          d.version_latest
      if latest = none ∨ latest = some "" ∨
          installed = none ∨ installed = some "" then
        Except.ok none
      else
        match installed, latest with
        | some i, some l =>
          match parseVersion i, parseVersion l with
          | some iv, some lv =>
            Except.ok (some (operator_list compare_operator iv lv))
          | _, _ => Except.ok none
        | _, _ => Except.ok none
  else Except.error PipAssertionError.assertionError

/-- The calls `check_for_pip_package_condition` makes to the Dependency
Metadata Provider. -/
inductive ProviderCall
  | constructDist (name : String)
  | versionInstalled
  | versionLatest
deriving DecidableEq

/-- The provider interactions of `check_for_pip_package_condition`, in source
order: the failed `assert` precedes the `JohnnyDist` construction; reading
`version_installed` precedes the `specific_version` branch; only the
`else` branch of that test reads `version_latest` (utils.py lines 537-575). -/
def pip_condition_provider_calls (dist : JohnnyDistResult)
    (package_name compare_operator specific_version : String) :
    List ProviderCall :=
  if compare_operator ∈ valid_compare_operators then
    match dist with
    | JohnnyDistResult.unavailable => [ProviderCall.constructDist package_name]
    | JohnnyDistResult.available _ =>
      if specific_version ≠ "" ∧ pyLower specific_version ≠ "latest" then
        [ProviderCall.constructDist package_name, ProviderCall.versionInstalled]
      else
        [ProviderCall.constructDist package_name, ProviderCall.versionInstalled,
          ProviderCall.versionLatest]
  else []

/-! ## Client CLI resolution (`get_command_line_params_client`) -/

/-- The abort argparse performs when a value is rejected (the `ValueError`
raised by `check_if_input_dir_exists` turning into a parse error): the
spec's `InvalidArgument`. -/
inductive ArgError
  | invalidArgument
deriving DecidableEq

/-- Model of `check_if_input_dir_exists` (utils.py lines 261-277), the
argparse `type=` converter of `--input-dir`: raises for a path that is not
an existing directory, otherwise returns the path unchanged.  `fs` models
`os.path.isdir`. -/
def check_if_input_dir_exists (fs : String → Bool) (dir : String) :
    Except ArgError String :=
  if fs dir then Except.ok dir else Except.error ArgError.invalidArgument

/-- One occurrence of a client command-line option, in command-line order.
`input_dir` and `extension` carry the (per `nargs="+"` non-empty) value list
of one occurrence of `--input-dir` resp. `--extension`; `other` stands for
an occurrence of any of the remaining client options, which do not interact
with these two. -/
inductive ClientArg
  | input_dir (vals : List String)
  | extension (vals : List String)
  | other
deriving DecidableEq

/-- The argparse destinations relevant to the claims: `action="extend"`
options start out as `None` and accumulate values across occurrences. -/
structure ClientArgsState where
  robot_input_dir : Option (List String)
  robot_extension : Option (List String)
deriving DecidableEq

/-- argparse applying the `type=check_if_input_dir_exists` converter to each
value of one `--input-dir` occurrence, left to right, aborting on the first
failure. -/
def convertInputDirs (fs : String → Bool) :
    List String → Except ArgError (List String)
  | [] => Except.ok []
  | v :: vs => do
    let w ← check_if_input_dir_exists fs v
    let ws ← convertInputDirs fs vs
    Except.ok (w :: ws)

/-- argparse processing of one option occurrence: `action="extend"` appends
the occurrence's values to the previously accumulated list (starting from
the absent value `none`). -/
def processClientArg (fs : String → Bool) (st : ClientArgsState) :
    ClientArg → Except ArgError ClientArgsState
  | ClientArg.input_dir vals => do
    let checked ← convertInputDirs fs vals
    Except.ok { st with
      robot_input_dir := some (st.robot_input_dir.getD [] ++ checked) }
  | ClientArg.extension vals =>
    Except.ok { st with
      robot_extension := some (st.robot_extension.getD [] ++ vals) }
  | ClientArg.other => Except.ok st

/-- argparse processing of the whole argument list (the `parser.parse_args()`
call of utils.py line 462), threading the accumulated state; any rejected
value aborts the whole parse, so no state is produced. -/
def parse_client_args (fs : String → Bool) (st : ClientArgsState) :
    List ClientArg → Except ArgError ClientArgsState
  | [] => Except.ok st
  | a :: rest => do
    let st1 ← processClientArg fs st a
    parse_client_args fs st1 rest

/-- A Python value that is either a single string or a list of strings:
the dynamic type of `robot_input_dir` after utils.py line 489. -/
inductive PyValue
  | str (s : String)
  | strList (l : List String)
deriving DecidableEq

/-- Line 489 of utils.py:
`robot_input_dir = "." if not robot_input_dir else robot_input_dir`.
The default is the single string `"."`; a truthy accumulated value (a
non-empty list) is kept as a list.  (`not` is Python truthiness: `None` and
the empty list are falsy.) -/
def default_robot_input_dir (v : Option (List String)) : PyValue :=
  match v with
  | none => PyValue.str "."
  | some l => if l = [] then PyValue.str "." else PyValue.strList l

/-- Lines 490-492 of utils.py:
the extension filter defaults to `["robot", "txt", "text", "resource"]`
when the accumulated value is falsy. -/
def default_robot_extension (v : Option (List String)) : List String :=
  match v with
  | none => ["robot", "txt", "text", "resource"]
  | some l => if l = [] then ["robot", "txt", "text", "resource"] else l

/-- Embedding of `get_command_line_params_client` (utils.py lines 280-513)
restricted to the fields the claims concern: run the argparse pass over the
argument occurrences, then apply the defaulting lines 487-492, returning the
resolved `(robot_input_dir, robot_extension)` pair. -/
def get_command_line_params_client (fs : String → Bool)
    (args : List ClientArg) : Except ArgError (PyValue × List String) := do
  let st ← parse_client_args fs ⟨none, none⟩ args
  Except.ok (default_robot_input_dir st.robot_input_dir,
    default_robot_extension st.robot_extension)

/-- The value lists of the `--extension` occurrences, in order. -/
def extensionOccs : List ClientArg → List (List String)
  | [] => []
  | ClientArg.extension vs :: rest => vs :: extensionOccs rest
  | _ :: rest => extensionOccs rest

/-- The value lists of the `--input-dir` occurrences, in order. -/
def inputDirOccs : List ClientArg → List (List String)
  | [] => []
  | ClientArg.input_dir vs :: rest => vs :: inputDirOccs rest
  | _ :: rest => inputDirOccs rest

/-! ## Upgrade Policy Resolver -/

/-- The server-scoped upgrade policy enum (the `--upgrade-server-packages`
choices, utils.py line 215). -/
inductive UpgradePolicy
  | NEVER
  | OUTDATED
  | ALWAYS
deriving DecidableEq

/-- The tri-state compliance outcome of the Evaluator: `Satisfied` /
`Violated` / `Indeterminate` stand for its `True` / `False` / `None`. -/
inductive ComparisonResult
  | Satisfied
  | Violated
  | Indeterminate
deriving DecidableEq

/-- Modelled from the spec: the Upgrade Policy Resolver `decide` function
(spec section 4.4).  The server-side module that merges the
`--upgrade-server-packages` policy, the client enforcement flag and the
compliance result is not part of the embedded source file (only the CLI
options feeding it appear in utils.py), so its precedence table is taken
from the spec, first match wins: NEVER vetoes; else the enforcement flag
forces; else ALWAYS upgrades; else OUTDATED upgrades unless Satisfied. -/
def UpgradePolicyResolver.decide (serverPolicy : UpgradePolicy)
    (enforcementFlag : Bool) (status : ComparisonResult) : Bool :=
  match serverPolicy, enforcementFlag with
  | UpgradePolicy.NEVER, _ => false
  | _, true => true
  | UpgradePolicy.ALWAYS, false => true
  | UpgradePolicy.OUTDATED, false =>
    match status with
    | ComparisonResult.Satisfied => false
    | _ => true

/-! ## Theorems -/

/-- Claim C1: the code does not realise `installed <operator> target` for all
six operators: `operator_list` binds the key `"<"` to `operator.le` and the
key `"<="` to `operator.lt` (swapped), so at equal versions the evaluator
answers `True` for `"<"` (where `1.0.0 < 1.0.0` is false) and `False` for
`"<="` (where `1.0.0 <= 1.0.0` is true). -/
theorem C1_operator_table_swapped :
    check_for_pip_package_condition
      (JohnnyDistResult.available ⟨some ("1.0.0"), none⟩) ("<") ("1.0.0") =
      Except.ok (some true) ∧
    check_for_pip_package_condition
      (JohnnyDistResult.available ⟨some ("1.0.0"), none⟩) ("<=") ("1.0.0") =
      Except.ok (some false) ∧
    verCompare [1, 0, 0] [1, 0, 0] = Ordering.eq :=
  ⟨rfl, rfl, rfl⟩

/-- Claim C2: an operator outside the six recognized symbols makes
`check_for_pip_package_condition` fail on its `assert` immediately, and no
call to the Dependency Metadata Provider is made. -/
theorem C2_invalid_operator_raises (dist : JohnnyDistResult)
    (package_name compare_operator specific_version : String)
    (hop : compare_operator ∉ valid_compare_operators) :
    check_for_pip_package_condition dist compare_operator specific_version =
      Except.error PipAssertionError.assertionError ∧
    pip_condition_provider_calls dist package_name compare_operator
      specific_version = [] := by
  constructor
  · unfold check_for_pip_package_condition
    rw [if_neg hop]
  · unfold pip_condition_provider_calls
    rw [if_neg hop]

/-- Witness for C2 at the unsupported operator `"~="`. -/
theorem C2_invalid_operator_raises_witness :
    (("~=") ∉ valid_compare_operators) ∧
    (check_for_pip_package_condition JohnnyDistResult.unavailable ("~=")
        ("1.0.0") = Except.error PipAssertionError.assertionError ∧
      pip_condition_provider_calls JohnnyDistResult.unavailable
        ("robotframework") ("~=") ("1.0.0") = []) :=
  ⟨by decide, C2_invalid_operator_raises JohnnyDistResult.unavailable
    ("robotframework") ("~=") ("1.0.0") (by decide)⟩

/-- Claim C7: the server veto is absolute: whatever the enforcement flag and
the compliance status, `decide` with server policy `NEVER` is `false`. -/
theorem C7_server_veto_absolute (enforcementFlag : Bool)
    (status : ComparisonResult) :
    UpgradePolicyResolver.decide UpgradePolicy.NEVER enforcementFlag status =
      false := by
  cases enforcementFlag <;> rfl

/-- Claim C3: with a valid operator, `check_for_pip_package_condition` never
raises: every path yields an `Except.ok` result; an unparsable verbatim
target yields Indeterminate (`ok none`); an unparsable installed version
yields Indeterminate. -/
theorem C3_valid_operator_never_raises (dist : JohnnyDistResult)
    (compare_operator specific_version : String)
    (hop : compare_operator ∈ valid_compare_operators) :
    (∃ r, check_for_pip_package_condition dist compare_operator
        specific_version = Except.ok r) ∧
    (∀ d, dist = JohnnyDistResult.available d → specific_version ≠ "" →
      pyLower specific_version ≠ "latest" →
      parseVersion specific_version = none →
      check_for_pip_package_condition dist compare_operator specific_version =
        Except.ok none) ∧
    (∀ d i, dist = JohnnyDistResult.available d →
      d.version_installed = some i → parseVersion i = none →
      check_for_pip_package_condition dist compare_operator specific_version =
        Except.ok none) := by
  refine ⟨?_, ?_, ?_⟩
  · cases dist with
    | unavailable =>
      refine ⟨none, ?_⟩
      unfold check_for_pip_package_condition
      rw [if_pos hop]
    | available d =>
      unfold check_for_pip_package_condition
      rw [if_pos hop]
      dsimp only
      by_cases hc : (specific_version ≠ "" ∧ pyLower specific_version ≠ "latest")
      · rw [if_pos hc]
        by_cases hC : ((some specific_version : Option String) = none ∨
            some specific_version = some "" ∨
            d.version_installed = none ∨ d.version_installed = some "")
        · rw [if_pos hC]; exact ⟨none, rfl⟩
        · rw [if_neg hC]
          cases hinst : d.version_installed with
          | none => exact ⟨none, rfl⟩
          | some i =>
            dsimp only
            cases hpi : parseVersion i with
            | none => exact ⟨none, rfl⟩
            | some iv =>
              cases hps : parseVersion specific_version with
              | none => exact ⟨none, rfl⟩
              | some sv2 =>
                exact ⟨some (operator_list compare_operator iv sv2), rfl⟩
      · rw [if_neg hc]
        cases hlat : d.version_latest with
        | none => exact ⟨none, by rw [if_pos (Or.inl rfl)]⟩
        | some l =>
          by_cases hC : ((some l : Option String) = none ∨ some l = some "" ∨
              d.version_installed = none ∨ d.version_installed = some "")
          · rw [if_pos hC]; exact ⟨none, rfl⟩
          · rw [if_neg hC]
            cases hinst : d.version_installed with
            | none => exact ⟨none, rfl⟩
            | some i =>
              dsimp only
              cases hpi : parseVersion i with
              | none => exact ⟨none, rfl⟩
              | some iv =>
                cases hpl : parseVersion l with
                | none => exact ⟨none, rfl⟩
                | some lv =>
                  exact ⟨some (operator_list compare_operator iv lv), rfl⟩
  · intro d hd hv2 hlow hp
    subst hd
    have hcnd : specific_version ≠ "" ∧ pyLower specific_version ≠ "latest" :=
      ⟨hv2, hlow⟩
    unfold check_for_pip_package_condition
    rw [if_pos hop]
    dsimp only
    rw [if_pos hcnd]
    cases hinst : d.version_installed with
    | none => rw [if_pos (Or.inr (Or.inr (Or.inl rfl)))]
    | some i =>
      by_cases hC : ((some specific_version : Option String) = none ∨
          some specific_version = some "" ∨
          (some i : Option String) = none ∨ some i = some "")
      · rw [if_pos hC]
      · rw [if_neg hC]
        dsimp only
        rw [hp]
        cases hpi : parseVersion i <;> rfl
  · intro d i hd hinst hpi
    subst hd
    unfold check_for_pip_package_condition
    rw [if_pos hop]
    dsimp only
    rw [hinst]
    by_cases hc : (specific_version ≠ "" ∧ pyLower specific_version ≠ "latest")
    · rw [if_pos hc]
      by_cases hC : ((some specific_version : Option String) = none ∨
          some specific_version = some "" ∨
          (some i : Option String) = none ∨ some i = some "")
      · rw [if_pos hC]
      · rw [if_neg hC]
        dsimp only
        rw [hpi]
    · rw [if_neg hc]
      cases hlat : d.version_latest with
      | none => rw [if_pos (Or.inl rfl)]
      | some l =>
        by_cases hC : ((some l : Option String) = none ∨ some l = some "" ∨
            (some i : Option String) = none ∨ some i = some "")
        · rw [if_pos hC]
        · rw [if_neg hC]
          dsimp only
          rw [hpi]

/-- Witness for C3 at operator `"=="`, an installed package at version
`1.0.0`, and the unparsable target `"not-a-version"`. -/
theorem C3_valid_operator_never_raises_witness :
    (("==") ∈ valid_compare_operators) ∧
    ((∃ r, check_for_pip_package_condition
        (JohnnyDistResult.available ⟨some ("1.0.0"), none⟩) ("==")
        ("not-a-version") = Except.ok r) ∧
    (∀ d, JohnnyDistResult.available ⟨some ("1.0.0"), none⟩ =
        JohnnyDistResult.available d → ("not-a-version" : String) ≠ "" →
      pyLower ("not-a-version") ≠ "latest" →
      parseVersion ("not-a-version") = none →
      check_for_pip_package_condition
        (JohnnyDistResult.available ⟨some ("1.0.0"), none⟩) ("==")
        ("not-a-version") = Except.ok none) ∧
    (∀ d i, JohnnyDistResult.available ⟨some ("1.0.0"), none⟩ =
        JohnnyDistResult.available d →
      d.version_installed = some i → parseVersion i = none →
      check_for_pip_package_condition
        (JohnnyDistResult.available ⟨some ("1.0.0"), none⟩) ("==")
        ("not-a-version") = Except.ok none)) :=
  ⟨by decide, C3_valid_operator_never_raises
    (JohnnyDistResult.available ⟨some ("1.0.0"), none⟩) ("==")
    ("not-a-version") (by decide)⟩

/-- Claim C4: with a `"latest"` target (case-insensitive), a failed
latest-version lookup yields Indeterminate whatever the installed version;
and an absent installed version yields Indeterminate whatever the lookup
returned. -/
theorem C4_latest_unavailable_indeterminate (installed lat : Option String)
    (compare_operator specific_version : String)
    (hop : compare_operator ∈ valid_compare_operators)
    (hlow : pyLower specific_version = "latest") :
    check_for_pip_package_condition
        (JohnnyDistResult.available ⟨installed, none⟩) compare_operator
        specific_version = Except.ok none ∧
    check_for_pip_package_condition
        (JohnnyDistResult.available ⟨none, lat⟩) compare_operator
        specific_version = Except.ok none := by
  have hc : ¬(specific_version ≠ "" ∧ pyLower specific_version ≠ "latest") :=
    fun h => h.2 hlow
  constructor
  · unfold check_for_pip_package_condition
    rw [if_pos hop]
    dsimp only
    rw [if_neg hc]
    rw [if_pos (Or.inl rfl)]
  · unfold check_for_pip_package_condition
    rw [if_pos hop]
    dsimp only
    rw [if_pos (Or.inr (Or.inr (Or.inl rfl)))]

/-- Witness for C4 at operator `">"`, target `"LATEST"`, an installed
version `1.2.0` on the first conjunct and a latest version `2.0.0` on the
second. -/
theorem C4_latest_unavailable_indeterminate_witness :
    ((">") ∈ valid_compare_operators) ∧
    pyLower ("LATEST") = "latest" ∧
    (check_for_pip_package_condition
        (JohnnyDistResult.available ⟨some ("1.2.0"), none⟩) (">") ("LATEST") =
        Except.ok none ∧
      check_for_pip_package_condition
        (JohnnyDistResult.available ⟨none, some ("2.0.0")⟩) (">") ("LATEST") =
        Except.ok none) :=
  ⟨by decide, by decide,
    C4_latest_unavailable_indeterminate (some ("1.2.0")) (some ("2.0.0"))
      (">") ("LATEST") (by decide) (by decide)⟩

/-- Claim C8: a non-empty target that is not `"latest"` (case-insensitively)
is used verbatim: the result does not depend on what the latest-version
lookup would return, and no `version_latest` read happens. -/
theorem C8_verbatim_target_no_lookup (installed l1 l2 : Option String)
    (package_name compare_operator specific_version : String)
    (hv : specific_version ≠ "") (hlow : pyLower specific_version ≠ "latest") :
    check_for_pip_package_condition (JohnnyDistResult.available ⟨installed, l1⟩)
        compare_operator specific_version =
      check_for_pip_package_condition
        (JohnnyDistResult.available ⟨installed, l2⟩) compare_operator
        specific_version ∧
    ProviderCall.versionLatest ∉
      pip_condition_provider_calls (JohnnyDistResult.available ⟨installed, l1⟩)
        package_name compare_operator specific_version := by
  have hc : specific_version ≠ "" ∧ pyLower specific_version ≠ "latest" :=
    ⟨hv, hlow⟩
  constructor
  · by_cases hop : compare_operator ∈ valid_compare_operators
    · unfold check_for_pip_package_condition
      rw [if_pos hop, if_pos hop]
      dsimp only
      rw [if_pos hc, if_pos hc]
    · unfold check_for_pip_package_condition
      rw [if_neg hop, if_neg hop]
  · by_cases hop : compare_operator ∈ valid_compare_operators
    · unfold pip_condition_provider_calls
      rw [if_pos hop]
      dsimp only
      rw [if_pos hc]
      simp
    · unfold pip_condition_provider_calls
      rw [if_neg hop]
      simp

/-- Witness for C8 at operator `"<"`, target `"2.0.0"`, installed `1.2.0`,
and two different latest-lookup behaviours (`9.9.9` vs a failing lookup). -/
theorem C8_verbatim_target_no_lookup_witness :
    (("2.0.0" : String) ≠ "") ∧ pyLower ("2.0.0") ≠ "latest" ∧
    (check_for_pip_package_condition
        (JohnnyDistResult.available ⟨some ("1.2.0"), some ("9.9.9")⟩) ("<")
        ("2.0.0") =
      check_for_pip_package_condition
        (JohnnyDistResult.available ⟨some ("1.2.0"), none⟩) ("<") ("2.0.0") ∧
    ProviderCall.versionLatest ∉
      pip_condition_provider_calls
        (JohnnyDistResult.available ⟨some ("1.2.0"), some ("9.9.9")⟩)
        ("robotframework") ("<") ("2.0.0")) :=
  ⟨by decide, by decide,
    C8_verbatim_target_no_lookup (some ("1.2.0")) (some ("9.9.9")) none
      ("robotframework") ("<") ("2.0.0") (by decide) (by decide)⟩

/-- Claim C10: an empty target spec is handled exactly like the `"latest"`
sentinel: the evaluator reads `version_latest` and compares the installed
version against the looked-up latest version. -/
theorem C10_empty_target_treated_as_latest (d : JohnnyDistInfo)
    (package_name compare_operator : String)
    (hop : compare_operator ∈ valid_compare_operators) :
    check_for_pip_package_condition (JohnnyDistResult.available d)
        compare_operator "" =
      check_for_pip_package_condition (JohnnyDistResult.available d)
        compare_operator ("latest") ∧
    ProviderCall.versionLatest ∈
      pip_condition_provider_calls (JohnnyDistResult.available d) package_name
        compare_operator "" ∧
    (∀ i l iv lv, d.version_installed = some i → d.version_latest = some l →
      parseVersion i = some iv → parseVersion l = some lv →
      check_for_pip_package_condition (JohnnyDistResult.available d)
          compare_operator "" =
        Except.ok (some (operator_list compare_operator iv lv))) := by
  have hc1 : ¬(("" : String) ≠ "" ∧ pyLower "" ≠ "latest") := fun h => h.1 rfl
  have hc2 : ¬(("latest" : String) ≠ "" ∧ pyLower ("latest") ≠ "latest") :=
    fun h => h.2 (by decide)
  refine ⟨?_, ?_, ?_⟩
  · unfold check_for_pip_package_condition
    rw [if_pos hop, if_pos hop]
    dsimp only
    rw [if_neg hc1, if_neg hc2]
  · unfold pip_condition_provider_calls
    rw [if_pos hop]
    dsimp only
    rw [if_neg hc1]
    simp
  · intro i l iv lv hinst hlat hpi hpl
    have hine : i ≠ "" := by
      intro h
      rw [h, show parseVersion "" = none from rfl] at hpi
      exact Option.noConfusion hpi
    have hlne : l ≠ "" := by
      intro h
      rw [h, show parseVersion "" = none from rfl] at hpl
      exact Option.noConfusion hpl
    unfold check_for_pip_package_condition
    rw [if_pos hop]
    dsimp only
    rw [if_neg hc1, hinst, hlat]
    rw [if_neg (by simp [hine, hlne])]
    dsimp only
    rw [hpi, hpl]

/-- Witness for C10 at operator `"=="`, installed `1.2.0`, and a latest
lookup answering `2.0.0`. -/
theorem C10_empty_target_treated_as_latest_witness :
    (("==") ∈ valid_compare_operators) ∧
    (check_for_pip_package_condition
        (JohnnyDistResult.available ⟨some ("1.2.0"), some ("2.0.0")⟩) ("==")
        "" =
      check_for_pip_package_condition
        (JohnnyDistResult.available ⟨some ("1.2.0"), some ("2.0.0")⟩) ("==")
        ("latest") ∧
    ProviderCall.versionLatest ∈
      pip_condition_provider_calls
        (JohnnyDistResult.available ⟨some ("1.2.0"), some ("2.0.0")⟩)
        ("robotframework") ("==") "" ∧
    (∀ i l iv lv,
      (JohnnyDistInfo.mk (some ("1.2.0")) (some ("2.0.0"))).version_installed =
        some i →
      (JohnnyDistInfo.mk (some ("1.2.0")) (some ("2.0.0"))).version_latest =
        some l →
      parseVersion i = some iv → parseVersion l = some lv →
      check_for_pip_package_condition
          (JohnnyDistResult.available ⟨some ("1.2.0"), some ("2.0.0")⟩) ("==")
          "" =
        Except.ok (some (operator_list ("==") iv lv)))) :=
  ⟨by decide,
    C10_empty_target_treated_as_latest ⟨some ("1.2.0"), some ("2.0.0")⟩
      ("robotframework") ("==") (by decide)⟩

/-- A bound `Except` computation succeeds exactly when both stages do. -/
theorem except_bind_eq_ok {ε α β : Type} (x : Except ε α) (f : α → Except ε β)
    (b : β) :
    x >>= f = Except.ok b ↔ ∃ a, x = Except.ok a ∧ f a = Except.ok b := by
  cases x with
  | error e =>
    exact ⟨fun h => Except.noConfusion h,
      fun ⟨a, ha, _⟩ => Except.noConfusion ha⟩
  | ok a =>
    exact ⟨fun h => ⟨a, rfl, h⟩, fun ⟨a2, ha, hf⟩ => by cases ha; exact hf⟩

/-- A successful conversion pass over the values of one `--input-dir`
occurrence returns them unchanged, and certifies each one as an existing
directory. -/
theorem convertInputDirs_eq_ok (fs : String → Bool) :
    ∀ (vals out : List String), convertInputDirs fs vals = Except.ok out →
      out = vals ∧ ∀ v ∈ vals, fs v = true := by
  intro vals
  induction vals with
  | nil =>
    intro out h
    cases h
    exact ⟨rfl, fun v hv => absurd hv (List.not_mem_nil v)⟩
  | cons v vs ih =>
    intro out h
    simp only [convertInputDirs] at h
    rw [except_bind_eq_ok] at h
    rcases h with ⟨w, hw, h⟩
    rw [except_bind_eq_ok] at h
    rcases h with ⟨ws, hws, h⟩
    cases h
    rcases ih ws hws with ⟨rfl, hall⟩
    unfold check_if_input_dir_exists at hw
    cases hfv : fs v with
    | false => rw [hfv] at hw; exact absurd hw (by simp)
    | true =>
      rw [hfv] at hw
      rw [if_pos rfl] at hw
      cases hw
      refine ⟨rfl, fun u hu => ?_⟩
      rcases List.mem_cons.mp hu with h | h
      · rw [h]; exact hfv
      · exact hall u h

/-- An `--input-dir` occurrence in the argument list contributes its value
list to `inputDirOccs`. -/
theorem inputDir_mem_occs :
    ∀ (args : List ClientArg) (vs : List String),
      ClientArg.input_dir vs ∈ args → vs ∈ inputDirOccs args := by
  intro args
  induction args with
  | nil => intro vs h; exact absurd h (List.not_mem_nil _)
  | cons a rest ih =>
    intro vs h
    rcases List.mem_cons.mp h with heq | hmem
    · rw [← heq]
      simp only [inputDirOccs]
      exact List.mem_cons_self _ _
    · cases a with
      | input_dir vs2 =>
        simp only [inputDirOccs]
        exact List.mem_cons_of_mem _ (ih vs hmem)
      | extension vs2 => simpa only [inputDirOccs] using ih vs hmem
      | other => simpa only [inputDirOccs] using ih vs hmem

/-- `action="extend"` accumulation for `--extension`: a successful parse
leaves the destination untouched when no occurrence appears, and otherwise
appends the concatenated occurrence values to the starting value. -/
theorem parse_client_args_extension_eq (fs : String → Bool) :
    ∀ (args : List ClientArg) (st0 st : ClientArgsState),
      parse_client_args fs st0 args = Except.ok st →
      st.robot_extension =
        if extensionOccs args = [] then st0.robot_extension
        else some (st0.robot_extension.getD [] ++ (extensionOccs args).flatten) := by
  intro args
  induction args with
  | nil =>
    intro st0 st h
    cases h
    simp [extensionOccs]
  | cons a rest ih =>
    intro st0 st h
    simp only [parse_client_args] at h
    rw [except_bind_eq_ok] at h
    rcases h with ⟨st1, h1, h2⟩
    have hst := ih st1 st h2
    cases a with
    | extension vs =>
      simp only [processClientArg] at h1
      cases h1
      simp only [extensionOccs]
      rw [if_neg (by simp)]
      cases hEq : extensionOccs rest with
      | nil =>
        rw [hEq, if_pos rfl] at hst
        rw [hst]
        simp [List.flatten]
      | cons o os =>
        rw [hEq, if_neg (by simp)] at hst
        rw [hst]
        simp [List.flatten, List.append_assoc]
    | input_dir vs =>
      simp only [processClientArg] at h1
      rw [except_bind_eq_ok] at h1
      rcases h1 with ⟨checked, hc, h1⟩
      cases h1
      simpa only [extensionOccs] using hst
    | other =>
      simp only [processClientArg] at h1
      cases h1
      simpa only [extensionOccs] using hst

/-- `action="extend"` accumulation with per-value validation for
`--input-dir`: a successful parse leaves the destination untouched when no
occurrence appears, and otherwise appends the concatenated (unchanged)
occurrence values to the starting value. -/
theorem parse_client_args_input_dir_eq (fs : String → Bool) :
    ∀ (args : List ClientArg) (st0 st : ClientArgsState),
      parse_client_args fs st0 args = Except.ok st →
      st.robot_input_dir =
        if inputDirOccs args = [] then st0.robot_input_dir
        else some (st0.robot_input_dir.getD [] ++ (inputDirOccs args).flatten) := by
  intro args
  induction args with
  | nil =>
    intro st0 st h
    cases h
    simp [inputDirOccs]
  | cons a rest ih =>
    intro st0 st h
    simp only [parse_client_args] at h
    rw [except_bind_eq_ok] at h
    rcases h with ⟨st1, h1, h2⟩
    have hst := ih st1 st h2
    cases a with
    | input_dir vs =>
      simp only [processClientArg] at h1
      rw [except_bind_eq_ok] at h1
      rcases h1 with ⟨checked, hc, h1⟩
      rcases convertInputDirs_eq_ok fs vs checked hc with ⟨rfl, _⟩
      cases h1
      simp only [inputDirOccs]
      rw [if_neg (by simp)]
      cases hEq : inputDirOccs rest with
      | nil =>
        rw [hEq, if_pos rfl] at hst
        rw [hst]
        simp [List.flatten]
      | cons o os =>
        rw [hEq, if_neg (by simp)] at hst
        rw [hst]
        simp [List.flatten, List.append_assoc]
    | extension vs =>
      simp only [processClientArg] at h1
      cases h1
      simpa only [inputDirOccs] using hst
    | other =>
      simp only [processClientArg] at h1
      cases h1
      simpa only [inputDirOccs] using hst

/-- A successful parse certifies every value of every `--input-dir`
occurrence as an existing directory. -/
theorem parse_client_args_dirs_checked (fs : String → Bool) :
    ∀ (args : List ClientArg) (st0 st : ClientArgsState),
      parse_client_args fs st0 args = Except.ok st →
      ∀ vs ∈ inputDirOccs args, ∀ v ∈ vs, fs v = true := by
  intro args
  induction args with
  | nil => intro st0 st h vs hvs; exact absurd hvs (List.not_mem_nil _)
  | cons a rest ih =>
    intro st0 st h vs hvs
    simp only [parse_client_args] at h
    rw [except_bind_eq_ok] at h
    rcases h with ⟨st1, h1, h2⟩
    cases a with
    | input_dir vs2 =>
      simp only [processClientArg] at h1
      rw [except_bind_eq_ok] at h1
      rcases h1 with ⟨checked, hc, h1⟩
      rcases convertInputDirs_eq_ok fs vs2 checked hc with ⟨_, hall⟩
      simp only [inputDirOccs] at hvs
      rcases List.mem_cons.mp hvs with heq | hmem
      · rw [heq]; exact hall
      · exact ih st1 st h2 vs hmem
    | extension vs2 =>
      simp only [processClientArg] at h1
      cases h1
      simp only [inputDirOccs] at hvs
      exact ih _ st h2 vs hvs
    | other =>
      simp only [processClientArg] at h1
      cases h1
      simp only [inputDirOccs] at hvs
      exact ih _ st h2 vs hvs

/-- A successful client CLI resolution comes from a successful argparse pass
followed by the defaulting lines. -/
theorem get_client_ok_elim (fs : String → Bool) (args : List ClientArg)
    (out : PyValue × List String)
    (h : get_command_line_params_client fs args = Except.ok out) :
    ∃ st, parse_client_args fs ⟨none, none⟩ args = Except.ok st ∧
      out = (default_robot_input_dir st.robot_input_dir,
        default_robot_extension st.robot_extension) := by
  unfold get_command_line_params_client at h
  rw [except_bind_eq_ok] at h
  rcases h with ⟨st, hst, hout⟩
  cases hout
  exact ⟨st, hst, rfl⟩

/-- Claim C5: the extension filter of the client CLI resolver defaults to
`["robot", "txt", "text", "resource"]` exactly when `--extension` never
occurred; any supplied occurrences (each non-empty, per `nargs="+"`) are
returned concatenated in order, with no default substitution. -/
theorem C5_extension_defaulting (fs : String → Bool) (args : List ClientArg)
    (out : PyValue × List String)
    (hok : get_command_line_params_client fs args = Except.ok out) :
    (extensionOccs args = [] →
      out.2 = ["robot", "txt", "text", "resource"]) ∧
    (extensionOccs args ≠ [] → (∀ vs ∈ extensionOccs args, vs ≠ []) →
      out.2 = (extensionOccs args).flatten) := by
  rcases get_client_ok_elim fs args out hok with ⟨st, hst, rfl⟩
  have hext := parse_client_args_extension_eq fs args _ _ hst
  constructor
  · intro h0
    rw [h0, if_pos rfl] at hext
    dsimp only
    rw [hext]
    rfl
  · intro hne hvals
    rw [if_neg hne] at hext
    dsimp only
    rw [hext]
    have hflat : (extensionOccs args).flatten ≠ [] := by
      cases hocc : extensionOccs args with
      | nil => exact absurd hocc hne
      | cons o os =>
        have ho : o ≠ [] := hvals o (by rw [hocc]; exact List.mem_cons_self o os)
        cases o with
        | nil => exact absurd rfl ho
        | cons x xs => simp [List.flatten]
    simp [default_robot_extension, hflat]

/-- Witness for C5: two occurrences of `--extension`, with values `py` then
`robot`, resolve to the ordered list `[py, robot]`; also the defaulted
conjunct is vacuously available. -/
theorem C5_extension_defaulting_witness :
    (get_command_line_params_client (fun _ => true)
      [ClientArg.extension [("py")], ClientArg.extension [("robot")]] =
      Except.ok (PyValue.str ("."), [("py"), ("robot")])) ∧
    ((extensionOccs
        [ClientArg.extension [("py")], ClientArg.extension [("robot")]] = [] →
      (PyValue.str ("."), [("py"), ("robot")]).2 =
        ["robot", "txt", "text", "resource"]) ∧
    (extensionOccs
        [ClientArg.extension [("py")], ClientArg.extension [("robot")]] ≠ [] →
      (∀ vs ∈ extensionOccs
        [ClientArg.extension [("py")], ClientArg.extension [("robot")]],
        vs ≠ []) →
      (PyValue.str ("."), [("py"), ("robot")]).2 =
        (extensionOccs
          [ClientArg.extension [("py")], ClientArg.extension [("robot")]]).flatten)) :=
  ⟨rfl, C5_extension_defaulting (fun _ => true)
    [ClientArg.extension [("py")], ClientArg.extension [("robot")]]
    (PyValue.str ("."), [("py"), ("robot")]) rfl⟩

/-- Claim C9: when `--input-dir` never occurred the resolver returns the
single string `"."`; supplied occurrences (each non-empty, per `nargs="+"`)
yield the list of their values — the dynamic type differs between the two
cases. -/
theorem C9_input_dir_default_type (fs : String → Bool) (args : List ClientArg)
    (out : PyValue × List String)
    (hok : get_command_line_params_client fs args = Except.ok out) :
    (inputDirOccs args = [] → out.1 = PyValue.str (".")) ∧
    (inputDirOccs args ≠ [] → (∀ vs ∈ inputDirOccs args, vs ≠ []) →
      out.1 = PyValue.strList (inputDirOccs args).flatten) := by
  rcases get_client_ok_elim fs args out hok with ⟨st, hst, rfl⟩
  have hdir := parse_client_args_input_dir_eq fs args _ _ hst
  constructor
  · intro h0
    rw [h0, if_pos rfl] at hdir
    dsimp only
    rw [hdir]
    rfl
  · intro hne hvals
    rw [if_neg hne] at hdir
    dsimp only
    rw [hdir]
    have hflat : (inputDirOccs args).flatten ≠ [] := by
      cases hocc : inputDirOccs args with
      | nil => exact absurd hocc hne
      | cons o os =>
        have ho : o ≠ [] := hvals o (by rw [hocc]; exact List.mem_cons_self o os)
        cases o with
        | nil => exact absurd rfl ho
        | cons x xs => simp [List.flatten]
    simp [default_robot_input_dir, hflat]

/-- Witness for C9: with no `--input-dir` occurrence the resolver yields the
string `"."`; with one occurrence carrying `/tests` it yields the singleton
list. -/
theorem C9_input_dir_default_type_witness :
    (get_command_line_params_client (fun _ => true) [ClientArg.other] =
      Except.ok (PyValue.str ("."),
        ["robot", "txt", "text", "resource"])) ∧
    ((inputDirOccs [ClientArg.other] = [] →
      (PyValue.str ("."), ["robot", "txt", "text", "resource"]).1 =
        PyValue.str (".")) ∧
    (inputDirOccs [ClientArg.other] ≠ [] →
      (∀ vs ∈ inputDirOccs [ClientArg.other], vs ≠ []) →
      (PyValue.str ("."), ["robot", "txt", "text", "resource"]).1 =
        PyValue.strList (inputDirOccs [ClientArg.other]).flatten)) :=
  ⟨rfl, C9_input_dir_default_type (fun _ => true) [ClientArg.other]
    (PyValue.str ("."), ["robot", "txt", "text", "resource"]) rfl⟩

/-- Claim C6: an `--input-dir` value that is not an existing directory makes
the client CLI resolution fail with the invalid-argument error — wherever
the occurrence sits in the argument list — so no configuration is
produced. -/
theorem C6_invalid_input_dir_aborts (fs : String → Bool)
    (args : List ClientArg) (vs : List String) (v : String)
    (hmem : ClientArg.input_dir vs ∈ args) (hv : v ∈ vs)
    (hfs : fs v = false) :
    get_command_line_params_client fs args =
      Except.error ArgError.invalidArgument := by
  cases hres : parse_client_args fs ⟨none, none⟩ args with
  | error e =>
    cases e
    unfold get_command_line_params_client
    rw [hres]
    rfl
  | ok st =>
    have hchk := parse_client_args_dirs_checked fs args _ _ hres vs
      (inputDir_mem_occs args vs hmem) v hv
    rw [hfs] at hchk
    exact Bool.noConfusion hchk

/-- Witness for C6: a non-existing `/does/not/exist` directory value, placed
after another option, aborts the resolution. -/
theorem C6_invalid_input_dir_aborts_witness :
    (ClientArg.input_dir [("/does/not/exist")] ∈
      [ClientArg.other, ClientArg.input_dir [("/does/not/exist")],
        ClientArg.extension [("py")]]) ∧
    (("/does/not/exist") ∈ [("/does/not/exist")]) ∧
    ((fun _ => false : String → Bool) ("/does/not/exist") = false) ∧
    get_command_line_params_client (fun _ => false)
      [ClientArg.other, ClientArg.input_dir [("/does/not/exist")],
        ClientArg.extension [("py")]] =
      Except.error ArgError.invalidArgument :=
  ⟨by decide, by decide, rfl,
    C6_invalid_input_dir_aborts (fun _ => false)
      [ClientArg.other, ClientArg.input_dir [("/does/not/exist")],
        ClientArg.extension [("py")]]
      [("/does/not/exist")] ("/does/not/exist") (by decide) (by decide) rfl⟩
